import Mathlib

/-!
Verification of the certificate revocation lifecycle engine.

The definitions below are a shallow embedding of the revocation engine:
the secret store helpers (loadSecrets, saveSecrets, withSecretsLock), the
commitment issuer (createRevocationUtxo), the issuance orchestrator
(issueCertificate), the revocation executor (revokeCertificate) and the
status oracle (checkRevocationStatus).

External capabilities are modelled as explicit parameters:
the wallet createAction capability is a function from the submitted action
arguments to a reply (an error message, or an optional transaction id plus
optional transaction bytes), the signer capability is a function from its
inputs (identity key, fields, certificate type, and the outpoint supplied
through the resolution callback) to a reply, SHA-256 is an uninterpreted
function on byte lists, and the output of the 32-byte random source is a
byte-list parameter.  The persisted secrets file is modelled as either
missing, unparseable (corrupt), or a parsed mapping; the JavaScript object
holding the records is modelled as an association list with unique keys.
-/

namespace Over18

/-- Substring test on character lists: does the pattern lead the list? -/
def leadsWith : List Char → List Char → Bool
  | [], _ => true
  | _ :: _, [] => false
  | a :: as, b :: bs => a == b && leadsWith as bs

/-- Does the pattern occur contiguously anywhere in the list? -/
def hasSubOf (pat : List Char) : List Char → Bool
  | [] => leadsWith pat []
  | c :: rest => leadsWith pat (c :: rest) || hasSubOf pat rest

/-- JavaScript String.includes: s.includes(pat). -/
def strIncludes (s pat : String) : Bool := hasSubOf pat.data s.data

/-- Lower-case hexadecimal digit for a value below 16. -/
def hexDigit (n : Nat) : Char :=
  if n < 10 then Char.ofNat (48 + n) else Char.ofNat (87 + n)

/-- Two-character lower-case hexadecimal rendering of one byte. -/
def byteToHex (b : Nat) : String :=
  String.mk [hexDigit (b / 16 % 16), hexDigit (b % 16)]

/-- Utils.toHex on a byte list. -/
def toHex (bs : List Nat) : String := String.join (bs.map byteToHex)

/-- Numeric value of one hexadecimal character. -/
def hexVal (c : Char) : Nat :=
  if c.toNat ≥ 97 then c.toNat - 87
  else if c.toNat ≥ 65 then c.toNat - 55
  else c.toNat - 48

/-- Decode pairs of hexadecimal characters into bytes. -/
def fromHexList : List Char → List Nat
  | a :: b :: rest => (hexVal a * 16 + hexVal b) :: fromHexList rest
  | _ => []

/-- Utils.toArray(s, hex): decode a hexadecimal string into bytes. -/
def fromHex (s : String) : List Nat := fromHexList s.data

/-- Characters of a string up to but excluding the first dot; models the
JavaScript expression s.split(".")[0]. -/
def takeUntilDot : List Char → List Char
  | [] => []
  | c :: rest => if c = '.' then [] else c :: takeUntilDot rest

/-- Transaction id part of an outpoint string "txid.index". -/
def outpointTxid (outpoint : String) : String :=
  String.mk (takeUntilDot outpoint.data)

/-- One revocation record, as persisted in .revocation-secrets.json:
hex-encoded 32-byte preimage, outpoint "txid.outputIndex", and the BEEF
transaction bytes returned by createAction. -/
structure RevocationRecord where
  secret : String
  outpoint : String
  beef : List Nat
deriving DecidableEq

/-- The in-memory mapping from certificate serial number to record,
modelling the parsed JSON object (keys unique). -/
abbrev Store := List (String × RevocationRecord)

/-- Property lookup records[serial] on the mapping object. -/
def storeGet (s : String) : Store → Option RevocationRecord
  | [] => none
  | (k, r) :: rest => if k = s then some r else storeGet s rest

/-- Property assignment records[serial] = r on the mapping object. -/
def storeSet (s : String) (r : RevocationRecord) : Store → Store
  | [] => [(s, r)]
  | (k, r0) :: rest =>
      if k = s then (s, r) :: rest else (k, r0) :: storeSet s r rest

/-- Property deletion delete records[serial] on the mapping object. -/
def storeDel (s : String) : Store → Store
  | [] => []
  | (k, r0) :: rest =>
      if k = s then storeDel s rest else (k, r0) :: storeDel s rest

/-- State of the persisted secrets file: absent, present but unparseable,
or present and parsed to a mapping. -/
inductive PersistedStore where
  | missing
  | corrupt
  | good (m : Store)
deriving DecidableEq

/-- loadSecrets: read and parse the secrets file; a missing file or a
parse failure (the catch-all branch) yields the empty mapping. -/
def loadSecrets : PersistedStore → Store
  | PersistedStore.missing => []
  | PersistedStore.corrupt => []
  | PersistedStore.good m => m

/-- saveSecrets: serialize and write the mapping back to the file. -/
def saveSecrets (m : Store) : PersistedStore := PersistedStore.good m

/-- withSecretsLock: under the write mutex, load the current mapping, run
the mutation, persist the result, and return the mutation result. -/
def withSecretsLock {T : Type} (ps : PersistedStore)
    (fn : Store → Store × T) : T × PersistedStore :=
  let records := loadSecrets ps
  let pr := fn records
  (pr.2, saveSecrets pr.1)

/-- One element written into a Script builder: an opcode or a data push. -/
inductive ScriptElem where
  | opcode (n : Nat)
  | push (bytes : List Nat)
deriving DecidableEq

/-- Opcode OP_SHA256. -/
def opSHA256 : Nat := 168

/-- Opcode OP_EQUAL. -/
def opEQUAL : Nat := 135

/-- One output passed to wallet.createAction. -/
structure OutputSpec where
  lockingScript : List ScriptElem
  satoshis : Nat
  outputDescription : String
  basket : String
  tags : List String
deriving DecidableEq

/-- Arguments of the createAction call that creates the revocation UTXO. -/
structure CreateActionArgs where
  description : String
  outputs : List OutputSpec
  randomizeOutputs : Bool
deriving DecidableEq

/-- One input passed to wallet.createAction when spending. -/
structure InputSpec where
  outpoint : String
  unlockingScript : List ScriptElem
  inputDescription : String
deriving DecidableEq

/-- Arguments of the createAction call that spends the revocation UTXO. -/
structure SpendActionArgs where
  description : String
  inputBEEF : Option (List Nat)
  inputs : List InputSpec
  outputs : List OutputSpec
  randomizeOutputs : Bool
deriving DecidableEq

/-- Reply of the wallet createAction capability: a thrown error message,
or a result object with optional txid and optional transaction bytes. -/
inductive LedgerReply where
  | err (msg : String)
  | ok (txid : Option String) (tx : Option (List Nat))
deriving DecidableEq

/-- The txid field of a createAction reply, when the call did not throw. -/
def replyTxid : LedgerReply → Option String
  | LedgerReply.err _ => none
  | LedgerReply.ok t _ => t

/-- The signed certificate produced by the external signer capability. -/
structure MasterCert where
  type : String
  serialNumber : String
  subject : String
  certifier : String
  revocationOutpoint : String
  fields : List (String × String)
  signature : String
  masterKeyring : List (String × String)
deriving DecidableEq

/-- Reply of the external signer capability. -/
inductive SignerReply where
  | err (msg : String)
  | ok (cert : MasterCert)
deriving DecidableEq

/-- Result of createRevocationUtxo. -/
structure UtxoResult where
  outpoint : String
  secret : String
  beef : List Nat
deriving DecidableEq

/-- The hash-lock locking script OP_SHA256 push(digest) OP_EQUAL. -/
def revocationLockingScript (digest : List Nat) : List ScriptElem :=
  [ScriptElem.opcode opSHA256, ScriptElem.push digest, ScriptElem.opcode opEQUAL]

/-- The createAction arguments submitted by createRevocationUtxo: one
1-satoshi output locked by the hash lock over the SHA-256 digest of the
secret, with randomizeOutputs disabled. -/
def revocationArgs (sha256 : List Nat → List Nat)
    (secretBytes : List Nat) : CreateActionArgs :=
  { description := "Certificate revocation UTXO"
    outputs := [{ lockingScript := revocationLockingScript (sha256 secretBytes)
                  satoshis := 1
                  outputDescription := "Revocation hash-lock"
                  basket := "revocation-utxos"
                  tags := ["revocation"] }]
    randomizeOutputs := false }

/-- createRevocationUtxo: draw the secret (the secretBytes parameter is
the value returned by Random(32)), submit the hash-locked 1-satoshi
output, fail when no txid comes back, and otherwise return the outpoint
txid.0, the hex secret, and the BEEF bytes. -/
def createRevocationUtxo (sha256 : List Nat → List Nat)
    (secretBytes : List Nat)
    (ledger : CreateActionArgs → LedgerReply) : Except String UtxoResult :=
  match ledger (revocationArgs sha256 secretBytes) with
  | LedgerReply.err m => Except.error m
  | LedgerReply.ok none _ =>
      Except.error "createAction did not return a txid — wallet may not be funded"
  | LedgerReply.ok (some txid) tx =>
      Except.ok { outpoint := txid ++ ".0"
                  secret := toHex secretBytes
                  beef := tx.getD [] }

/-- Does the caught error message indicate missing funds? -/
def fundsRelated (msg : String) : Bool :=
  strIncludes msg "not enough funds" || strIncludes msg "not funded" ||
    strIncludes msg "ERR_NOT_SUFFICIENT_FUNDS"

/-- The distinct user-actionable error surfaced when the wallet is not
funded. -/
def notFundedMsg : String :=
  "Certifier wallet not funded. Use /api/fund to add funds before issuing certificates."

/-- The value returned by issueCertificate on success. -/
structure IssueResult where
  type : String
  serialNumber : String
  subject : String
  certifier : String
  revocationOutpoint : String
  revocationTxid : String
  fields : List (String × String)
  signature : String
  keyringForSubject : List (String × String)
deriving DecidableEq

/-- issueCertificate: create the revocation UTXO (mapping funds-related
failures to the distinct not-funded error), invoke the signer with a
callback resolving to the created outpoint, persist the revocation record
under the signed serial number, and return the signed certificate data
plus the revocation txid.  The second component of the result is the
persisted store after the call; every failure path leaves it untouched. -/
def issueCertificate (sha256 : List Nat → List Nat) (secretBytes : List Nat)
    (ledger : CreateActionArgs → LedgerReply)
    (signer : String → List (String × String) → String → String → SignerReply)
    (identityKey : String) (fields : List (String × String)) (certType : String)
    (ps : PersistedStore) : Except String IssueResult × PersistedStore :=
  match createRevocationUtxo sha256 secretBytes ledger with
  | Except.error msg =>
      (Except.error (if fundsRelated msg then notFundedMsg else msg), ps)
  | Except.ok utxo =>
      match signer identityKey fields certType utxo.outpoint with
      | SignerReply.err m => (Except.error m, ps)
      | SignerReply.ok c =>
          let r0 : RevocationRecord :=
            { secret := utxo.secret, outpoint := utxo.outpoint, beef := utxo.beef }
          let lk := withSecretsLock ps
            (fun recs => (storeSet c.serialNumber r0 recs, ()))
          (Except.ok
            { type := c.type
              serialNumber := c.serialNumber
              subject := c.subject
              certifier := c.certifier
              revocationOutpoint := c.revocationOutpoint
              revocationTxid := outpointTxid utxo.outpoint
              fields := c.fields
              signature := c.signature
              keyringForSubject := c.masterKeyring }, lk.2)

/-- The value returned by revokeCertificate on success. -/
structure SpendResult where
  txid : String
deriving DecidableEq

/-- The createAction arguments submitted when spending the revocation
UTXO of a record: the BEEF bytes when present, one input naming the
outpoint with an unlocking script pushing the raw secret preimage, and no
outputs. -/
def revokeArgs (record : RevocationRecord) : SpendActionArgs :=
  { description := "Revoke certificate"
    inputBEEF := if record.beef.length > 0 then some record.beef else none
    inputs := [{ outpoint := record.outpoint
                 unlockingScript := [ScriptElem.push (fromHex record.secret)]
                 inputDescription := "Spend revocation UTXO" }]
    outputs := []
    randomizeOutputs := false }

/-- revokeCertificate: look the record up (fail with the not-found error
when absent), submit the spend, fail when no txid comes back, and only
after a confirmed txid delete the record under the store lock.  The
second component is the persisted store after the call. -/
def revokeCertificate (serialNumber : String)
    (ledger : SpendActionArgs → LedgerReply)
    (ps : PersistedStore) : Except String SpendResult × PersistedStore :=
  match storeGet serialNumber (loadSecrets ps) with
  | none => (Except.error "Certificate already revoked or not found", ps)
  | some record =>
      match ledger (revokeArgs record) with
      | LedgerReply.err m => (Except.error m, ps)
      | LedgerReply.ok none _ =>
          (Except.error "Revocation transaction failed — no txid returned", ps)
      | LedgerReply.ok (some txid) _ =>
          let lk := withSecretsLock ps (fun recs => (storeDel serialNumber recs, ()))
          (Except.ok { txid := txid }, lk.2)

/-- The reserved legacy sentinel outpoint: 64 zero hexadecimal characters
and output index 0. -/
def dummyOutpoint : String := String.join (List.replicate 32 "00") ++ ".0"

/-- checkRevocationStatus: the sentinel is never revoked; otherwise scan
the current mapping for a record naming the outpoint, presence meaning
not revoked and absence meaning revoked. -/
def checkRevocationStatus (revocationOutpoint : String)
    (ps : PersistedStore) : Bool :=
  if revocationOutpoint = dummyOutpoint then false
  else
    let records := loadSecrets ps
    let found := records.any (fun kv => kv.2.outpoint == revocationOutpoint)
    !found

/-!
Transition system for the reachable-state invariant.

A state couples the persisted store with the ledger-side bookkeeping:
which engine-created commitment outpoints are currently unspent, which
have been spent, and the history of (serial number, outpoint) pairs for
which a certificate was successfully issued.  Each step runs one embedded
operation with a concrete capability reply and updates the ledger side
according to the capability semantics: a successful createAction with one
output creates the unspent outpoint txid.0, a failed one creates nothing,
a successful spend moves the named outpoint from unspent to spent, and a
failed spend moves nothing.  The freshness hypotheses model the external
contracts that ledger transaction ids are unique and the signer never
reuses a serial number.
-/

/-- One state of the engine plus its ledger environment. -/
structure EngineState where
  ps : PersistedStore
  unspent : List String
  spent : List String
  history : List (String × String)

/-- The starting state: no secrets file, nothing on chain. -/
def initState : EngineState :=
  { ps := PersistedStore.missing, unspent := [], spent := [], history := [] }

/-- One engine operation, run against concrete capability replies. -/
inductive Step : EngineState → EngineState → Prop where
  | issueOk (sha256 : List Nat → List Nat) (secretBytes : List Nat)
      (txid : String) (txBytes : List Nat) (c : MasterCert)
      (identityKey certType : String) (fields : List (String × String))
      (st : EngineState)
      (hfresh1 : (txid ++ ".0") ∉ st.unspent)
      (hfresh2 : (txid ++ ".0") ∉ st.spent)
      (hserial : ∀ o, (c.serialNumber, o) ∉ st.history) :
      Step st
        { ps := (issueCertificate sha256 secretBytes
                  (fun _ => LedgerReply.ok (some txid) (some txBytes))
                  (fun _ _ _ _ => SignerReply.ok c)
                  identityKey fields certType st.ps).2
          unspent := (txid ++ ".0") :: st.unspent
          spent := st.spent
          history := (c.serialNumber, txid ++ ".0") :: st.history }
  | issueSignFail (sha256 : List Nat → List Nat) (secretBytes : List Nat)
      (txid : String) (txBytes : List Nat) (msg : String)
      (identityKey certType : String) (fields : List (String × String))
      (st : EngineState)
      (hfresh1 : (txid ++ ".0") ∉ st.unspent)
      (hfresh2 : (txid ++ ".0") ∉ st.spent) :
      Step st
        { ps := (issueCertificate sha256 secretBytes
                  (fun _ => LedgerReply.ok (some txid) (some txBytes))
                  (fun _ _ _ _ => SignerReply.err msg)
                  identityKey fields certType st.ps).2
          unspent := (txid ++ ".0") :: st.unspent
          spent := st.spent
          history := st.history }
  | issueCreateFail (sha256 : List Nat → List Nat) (secretBytes : List Nat)
      (reply : LedgerReply)
      (signer : String → List (String × String) → String → String → SignerReply)
      (identityKey certType : String) (fields : List (String × String))
      (st : EngineState)
      (hfail : ∀ txid tx, reply ≠ LedgerReply.ok (some txid) tx) :
      Step st
        { ps := (issueCertificate sha256 secretBytes (fun _ => reply) signer
                  identityKey fields certType st.ps).2
          unspent := st.unspent
          spent := st.spent
          history := st.history }
  | revokeOk (serialNumber txid2 : String) (r : RevocationRecord)
      (st : EngineState)
      (hrec : storeGet serialNumber (loadSecrets st.ps) = some r) :
      Step st
        { ps := (revokeCertificate serialNumber
                  (fun _ => LedgerReply.ok (some txid2) none) st.ps).2
          unspent := st.unspent.erase r.outpoint
          spent := r.outpoint :: st.spent
          history := st.history }
  | revokeNoTxid (serialNumber : String) (tx : Option (List Nat))
      (st : EngineState) :
      Step st
        { ps := (revokeCertificate serialNumber
                  (fun _ => LedgerReply.ok none tx) st.ps).2
          unspent := st.unspent
          spent := st.spent
          history := st.history }
  | revokeLedgerErr (serialNumber msg : String) (st : EngineState) :
      Step st
        { ps := (revokeCertificate serialNumber
                  (fun _ => LedgerReply.err msg) st.ps).2
          unspent := st.unspent
          spent := st.spent
          history := st.history }

/-- States the engine can reach from the starting state. -/
inductive Reachable : EngineState → Prop where
  | init : Reachable initState
  | step {s t : EngineState} : Reachable s → Step s t → Reachable t

/-- The inductive invariant tying the store to the ledger environment. -/
structure Inv (st : EngineState) : Prop where
  nodupUnspent : st.unspent.Nodup
  disj : ∀ o, o ∈ st.unspent → o ∉ st.spent
  histSome : ∀ s o r, (s, o) ∈ st.history →
      storeGet s (loadSecrets st.ps) = some r → r.outpoint = o ∧ o ∈ st.unspent
  histNone : ∀ s o, (s, o) ∈ st.history →
      storeGet s (loadSecrets st.ps) = none → o ∈ st.spent
  storeHist : ∀ s r, storeGet s (loadSecrets st.ps) = some r →
      (s, r.outpoint) ∈ st.history
  outpointInj : ∀ s1 s2 r1 r2, storeGet s1 (loadSecrets st.ps) = some r1 →
      storeGet s2 (loadSecrets st.ps) = some r2 →
      r1.outpoint = r2.outpoint → s1 = s2

/-! Association-list lemmas for the store operations. -/

theorem storeGet_set_self (s : String) (r : RevocationRecord) (m : Store) :
    storeGet s (storeSet s r m) = some r := by
  induction m with
  | nil => simp [storeSet, storeGet]
  | cons kv rest ih =>
      obtain ⟨k, r0⟩ := kv
      by_cases h : k = s
      · subst h
        simp [storeSet, storeGet]
      · simp [storeSet, storeGet, h, ih]

theorem storeGet_set_ne (s' s : String) (r : RevocationRecord) (m : Store)
    (h : s' ≠ s) : storeGet s' (storeSet s r m) = storeGet s' m := by
  have h2 : s ≠ s' := Ne.symm h
  induction m with
  | nil => simp [storeSet, storeGet, h2]
  | cons kv rest ih =>
      obtain ⟨k, r0⟩ := kv
      by_cases hk : k = s
      · simp [storeSet, storeGet, hk, h2]
      · simp [storeSet, storeGet, hk, ih]

theorem storeGet_del_self (s : String) (m : Store) :
    storeGet s (storeDel s m) = none := by
  induction m with
  | nil => simp [storeDel, storeGet]
  | cons kv rest ih =>
      obtain ⟨k, r0⟩ := kv
      by_cases h : k = s
      · subst h
        simp [storeDel, storeGet, ih]
      · simp [storeDel, storeGet, h, ih]

theorem storeGet_del_ne (s' s : String) (m : Store) (h : s' ≠ s) :
    storeGet s' (storeDel s m) = storeGet s' m := by
  have h2 : s ≠ s' := Ne.symm h
  induction m with
  | nil => simp [storeDel, storeGet]
  | cons kv rest ih =>
      obtain ⟨k, r0⟩ := kv
      by_cases hk : k = s
      · simp [storeDel, storeGet, hk, h2, ih]
      · simp [storeDel, storeGet, hk, ih]

theorem mem_storeSet_self (s : String) (r : RevocationRecord) (m : Store) :
    (s, r) ∈ storeSet s r m := by
  induction m with
  | nil => simp [storeSet]
  | cons kv rest ih =>
      obtain ⟨k, r0⟩ := kv
      by_cases h : k = s
      · subst h
        simp [storeSet]
      · simp only [storeSet, if_neg h]
        exact List.mem_cons_of_mem _ ih

/-! Evaluation lemmas: the state each operation leaves the store in. -/

theorem issueOk_run (sha256 : List Nat → List Nat) (secretBytes : List Nat)
    (txid : String) (txBytes : List Nat) (c : MasterCert)
    (identityKey certType : String) (fields : List (String × String))
    (ps : PersistedStore) :
    issueCertificate sha256 secretBytes
        (fun _ => LedgerReply.ok (some txid) (some txBytes))
        (fun _ _ _ _ => SignerReply.ok c) identityKey fields certType ps =
      (Except.ok
        { type := c.type
          serialNumber := c.serialNumber
          subject := c.subject
          certifier := c.certifier
          revocationOutpoint := c.revocationOutpoint
          revocationTxid := outpointTxid (txid ++ ".0")
          fields := c.fields
          signature := c.signature
          keyringForSubject := c.masterKeyring },
       PersistedStore.good (storeSet c.serialNumber
         { secret := toHex secretBytes, outpoint := txid ++ ".0", beef := txBytes }
         (loadSecrets ps))) := rfl

theorem issueSignFail_run (sha256 : List Nat → List Nat)
    (secretBytes : List Nat) (txid : String) (txBytes : List Nat)
    (msg : String) (identityKey certType : String)
    (fields : List (String × String)) (ps : PersistedStore) :
    issueCertificate sha256 secretBytes
        (fun _ => LedgerReply.ok (some txid) (some txBytes))
        (fun _ _ _ _ => SignerReply.err msg) identityKey fields certType ps =
      (Except.error msg, ps) := rfl

theorem issueCreateFail_run (sha256 : List Nat → List Nat)
    (secretBytes : List Nat) (reply : LedgerReply)
    (signer : String → List (String × String) → String → String → SignerReply)
    (identityKey certType : String) (fields : List (String × String))
    (ps : PersistedStore)
    (hfail : ∀ txid tx, reply ≠ LedgerReply.ok (some txid) tx) :
    (issueCertificate sha256 secretBytes (fun _ => reply) signer
        identityKey fields certType ps).2 = ps := by
  cases reply with
  | err m => rfl
  | ok t tx =>
      cases t with
      | none => rfl
      | some txid => exact absurd rfl (hfail txid tx)

theorem revokeOk_run (serialNumber txid2 : String) (r : RevocationRecord)
    (tx : Option (List Nat)) (ps : PersistedStore)
    (hrec : storeGet serialNumber (loadSecrets ps) = some r) :
    revokeCertificate serialNumber
        (fun _ => LedgerReply.ok (some txid2) tx) ps =
      (Except.ok { txid := txid2 },
       PersistedStore.good (storeDel serialNumber (loadSecrets ps))) := by
  simp [revokeCertificate, hrec, withSecretsLock, saveSecrets]

theorem revokeNoTxid_run (serialNumber : String) (tx : Option (List Nat))
    (ps : PersistedStore) :
    (revokeCertificate serialNumber
        (fun _ => LedgerReply.ok none tx) ps).2 = ps := by
  cases h : storeGet serialNumber (loadSecrets ps) <;>
    simp [revokeCertificate, h]

theorem revokeLedgerErr_run (serialNumber msg : String) (ps : PersistedStore) :
    (revokeCertificate serialNumber (fun _ => LedgerReply.err msg) ps).2 = ps := by
  cases h : storeGet serialNumber (loadSecrets ps) <;>
    simp [revokeCertificate, h]

theorem inv_init : Inv initState := by
  refine ⟨?_, ?_, ?_, ?_, ?_, ?_⟩ <;>
    simp [initState, loadSecrets, storeGet]

theorem step_preserves {st st' : EngineState} (hs : Step st st')
    (hinv : Inv st) : Inv st' := by
  cases hs with
  | issueOk sha256 secretBytes txid txBytes c identityKey certType fields
      st hfresh1 hfresh2 hserial =>
      refine ⟨?_, ?_, ?_, ?_, ?_, ?_⟩
      · exact List.nodup_cons.mpr ⟨hfresh1, hinv.nodupUnspent⟩
      · intro o ho
        rcases List.mem_cons.mp ho with rfl | ho2
        · exact hfresh2
        · exact hinv.disj o ho2
      · intro s o r hmem hget
        simp only [issueOk_run, loadSecrets] at hget
        rcases List.mem_cons.mp hmem with hpair | hold
        · have hss : s = c.serialNumber := congrArg Prod.fst hpair
          have hoo : o = txid ++ ".0" := congrArg Prod.snd hpair
          subst hss; subst hoo
          rw [storeGet_set_self] at hget
          cases hget
          exact ⟨rfl, List.mem_cons_self _ _⟩
        · have hne : s ≠ c.serialNumber := fun he => hserial o (he ▸ hold)
          rw [storeGet_set_ne _ _ _ _ hne] at hget
          have h2 := hinv.histSome s o r hold hget
          exact ⟨h2.1, List.mem_cons_of_mem _ h2.2⟩
      · intro s o hmem hget
        simp only [issueOk_run, loadSecrets] at hget
        rcases List.mem_cons.mp hmem with hpair | hold
        · have hss : s = c.serialNumber := congrArg Prod.fst hpair
          subst hss
          rw [storeGet_set_self] at hget
          cases hget
        · have hne : s ≠ c.serialNumber := fun he => hserial o (he ▸ hold)
          rw [storeGet_set_ne _ _ _ _ hne] at hget
          exact hinv.histNone s o hold hget
      · intro s r hget
        simp only [issueOk_run, loadSecrets] at hget
        by_cases hss : s = c.serialNumber
        · subst hss
          rw [storeGet_set_self] at hget
          cases hget
          exact List.mem_cons_self _ _
        · rw [storeGet_set_ne _ _ _ _ hss] at hget
          exact List.mem_cons_of_mem _ (hinv.storeHist s r hget)
      · intro s1 s2 r1 r2 h1 h2 heq
        simp only [issueOk_run, loadSecrets] at h1 h2
        by_cases e1 : s1 = c.serialNumber <;> by_cases e2 : s2 = c.serialNumber
        · rw [e1, e2]
        · exfalso
          subst e1
          rw [storeGet_set_self] at h1
          cases h1
          rw [storeGet_set_ne _ _ _ _ e2] at h2
          have hmem := hinv.storeHist s2 r2 h2
          have h3 := (hinv.histSome s2 r2.outpoint r2 hmem h2).2
          have h4 : (txid ++ ".0") = r2.outpoint := heq
          exact hfresh1 (by rw [h4]; exact h3)
        · exfalso
          subst e2
          rw [storeGet_set_self] at h2
          cases h2
          rw [storeGet_set_ne _ _ _ _ e1] at h1
          have hmem := hinv.storeHist s1 r1 h1
          have h3 := (hinv.histSome s1 r1.outpoint r1 hmem h1).2
          have h4 : r1.outpoint = (txid ++ ".0") := heq
          exact hfresh1 (by rw [← h4]; exact h3)
        · rw [storeGet_set_ne _ _ _ _ e1] at h1
          rw [storeGet_set_ne _ _ _ _ e2] at h2
          exact hinv.outpointInj s1 s2 r1 r2 h1 h2 heq
  | issueSignFail sha256 secretBytes txid txBytes msg identityKey certType
      fields st hfresh1 hfresh2 =>
      refine ⟨?_, ?_, ?_, ?_, ?_, ?_⟩
      · exact List.nodup_cons.mpr ⟨hfresh1, hinv.nodupUnspent⟩
      · intro o ho
        rcases List.mem_cons.mp ho with rfl | ho2
        · exact hfresh2
        · exact hinv.disj o ho2
      · intro s o r hmem hget
        simp only [issueSignFail_run] at hget
        have h2 := hinv.histSome s o r hmem hget
        exact ⟨h2.1, List.mem_cons_of_mem _ h2.2⟩
      · intro s o hmem hget
        simp only [issueSignFail_run] at hget
        exact hinv.histNone s o hmem hget
      · intro s r hget
        simp only [issueSignFail_run] at hget
        exact hinv.storeHist s r hget
      · intro s1 s2 r1 r2 h1 h2 heq
        simp only [issueSignFail_run] at h1 h2
        exact hinv.outpointInj s1 s2 r1 r2 h1 h2 heq
  | issueCreateFail sha256 secretBytes reply signer identityKey certType
      fields st hfail =>
      obtain ⟨ps0, u0, sp0, h0⟩ := st
      rw [issueCreateFail_run sha256 secretBytes reply signer identityKey
        certType fields ps0 hfail]
      exact hinv
  | revokeOk serialNumber txid2 r st hrec =>
      have hmemHist := hinv.storeHist serialNumber r hrec
      have hro := (hinv.histSome serialNumber r.outpoint r hmemHist hrec).2
      have hnotSpent := hinv.disj r.outpoint hro
      refine ⟨?_, ?_, ?_, ?_, ?_, ?_⟩
      · exact hinv.nodupUnspent.erase r.outpoint
      · intro o ho hsp
        obtain ⟨hne, ho2⟩ := (List.Nodup.mem_erase_iff hinv.nodupUnspent).mp ho
        rcases List.mem_cons.mp hsp with rfl | hsp2
        · exact hne rfl
        · exact hinv.disj o ho2 hsp2
      · intro s o r' hmem hget
        simp only [revokeOk_run serialNumber txid2 r none _ hrec,
          loadSecrets] at hget
        by_cases hss : s = serialNumber
        · subst hss
          rw [storeGet_del_self] at hget
          cases hget
        · rw [storeGet_del_ne _ _ _ hss] at hget
          obtain ⟨ho, hu⟩ := hinv.histSome s o r' hmem hget
          refine ⟨ho, ?_⟩
          have hneq : o ≠ r.outpoint := by
            intro he
            exact hss (hinv.outpointInj s serialNumber r' r hget hrec
              (by rw [ho, he]))
          exact (List.mem_erase_of_ne hneq).mpr hu
      · intro s o hmem hget
        simp only [revokeOk_run serialNumber txid2 r none _ hrec,
          loadSecrets] at hget
        by_cases hss : s = serialNumber
        · subst hss
          have h2 := (hinv.histSome s o r hmem hrec).1
          rw [← h2]
          exact List.mem_cons_self _ _
        · rw [storeGet_del_ne _ _ _ hss] at hget
          exact List.mem_cons_of_mem _ (hinv.histNone s o hmem hget)
      · intro s r' hget
        simp only [revokeOk_run serialNumber txid2 r none _ hrec,
          loadSecrets] at hget
        by_cases hss : s = serialNumber
        · subst hss
          rw [storeGet_del_self] at hget
          cases hget
        · rw [storeGet_del_ne _ _ _ hss] at hget
          exact hinv.storeHist s r' hget
      · intro s1 s2 r1 r2 h1 h2 heq
        simp only [revokeOk_run serialNumber txid2 r none _ hrec,
          loadSecrets] at h1 h2
        by_cases e1 : s1 = serialNumber
        · subst e1
          rw [storeGet_del_self] at h1
          cases h1
        · by_cases e2 : s2 = serialNumber
          · subst e2
            rw [storeGet_del_self] at h2
            cases h2
          · rw [storeGet_del_ne _ _ _ e1] at h1
            rw [storeGet_del_ne _ _ _ e2] at h2
            exact hinv.outpointInj s1 s2 r1 r2 h1 h2 heq
  | revokeNoTxid serialNumber tx st =>
      obtain ⟨ps0, u0, sp0, h0⟩ := st
      rw [revokeNoTxid_run serialNumber tx ps0]
      exact hinv
  | revokeLedgerErr serialNumber msg st =>
      obtain ⟨ps0, u0, sp0, h0⟩ := st
      rw [revokeLedgerErr_run serialNumber msg ps0]
      exact hinv

theorem reachable_inv {st : EngineState} (h : Reachable st) : Inv st := by
  induction h with
  | init => exact inv_init
  | step _ hs ih => exact step_preserves hs ih

/-- Does the record stored under serial number s name the outpoint o? -/
def recordNames (s o : String) (ps : PersistedStore) : Bool :=
  match storeGet s (loadSecrets ps) with
  | some r => r.outpoint == o
  | none => false

/-- C1: central store invariant.  At every state reachable through the
engine operations (with the external contracts that the ledger assigns
fresh transaction ids and the signer assigns fresh serial numbers), for
every certificate issuance on record — a (serial number, commitment
outpoint) pair in the issuance history — a RevocationRecord naming that
commitment exists in the store under the serial number if and only if the
commitment is unspent.  Issuance establishes the property because the
record is persisted in the same operation that creates the commitment
on-chain, and revocation preserves it because the record is deleted only
in the branch where the spend returned a confirmed transaction id. -/
theorem central_invariant_record_iff_unspent (st : EngineState)
    (h : Reachable st) (s o : String) (hso : (s, o) ∈ st.history) :
    recordNames s o st.ps = true ↔ o ∈ st.unspent := by
  have hinv := reachable_inv h
  constructor
  · intro hrt
    unfold recordNames at hrt
    cases hg : storeGet s (loadSecrets st.ps) with
    | none => rw [hg] at hrt; cases hrt
    | some r =>
        rw [hg] at hrt
        have he : r.outpoint = o := by
          simpa using hrt
        have h2 := hinv.histSome s o r hso hg
        exact h2.2
  · intro ho
    unfold recordNames
    cases hg : storeGet s (loadSecrets st.ps) with
    | none => exact absurd (hinv.histNone s o hso hg) (hinv.disj o ho)
    | some r =>
        have h2 := hinv.histSome s o r hso hg
        simp [h2.1]

/-! Concrete sample capabilities used to exercise the theorems. -/

/-- Sample uninterpreted hash function. -/
def sha0 : List Nat → List Nat := fun _ => [0]

/-- Sample signed certificate. -/
def cert1 : MasterCert :=
  { type := "age", serialNumber := "serial1", subject := "subj"
    certifier := "certf", revocationOutpoint := "t1.0", fields := []
    signature := "sig", masterKeyring := [] }

/-- Sample ledger capability that accepts the creation. -/
def ledg1 : CreateActionArgs → LedgerReply :=
  fun _ => LedgerReply.ok (some "t1") (some [9])

/-- Sample signer capability returning cert1. -/
def sign1 : String → List (String × String) → String → String → SignerReply :=
  fun _ _ _ _ => SignerReply.ok cert1

/-- The state after one successful issuance from the start state. -/
def issueState1 : EngineState :=
  { ps := (issueCertificate sha0 [1, 2, 3] ledg1 sign1 "ik" [] "ct"
            PersistedStore.missing).2
    unspent := ("t1" ++ ".0") :: initState.unspent
    spent := initState.spent
    history := ("serial1", "t1" ++ ".0") :: initState.history }

theorem reachable_issueState1 : Reachable issueState1 :=
  Reachable.step Reachable.init
    (Step.issueOk sha0 [1, 2, 3] "t1" [9] cert1 "ik" "ct" [] initState
      (by simp [initState]) (by simp [initState])
      (by intro o; simp [initState]))

/-- Witness for C1 at a concrete reachable state. -/
theorem central_invariant_record_iff_unspent_witness :
    recordNames "serial1" ("t1" ++ ".0") issueState1.ps = true ↔
      ("t1" ++ ".0") ∈ issueState1.unspent :=
  central_invariant_record_iff_unspent issueState1 reachable_issueState1
    "serial1" ("t1" ++ ".0") (by simp [issueState1])

/-- C2: for a reference other than the legacy sentinel, the status oracle
reports not revoked exactly when some record in the current persisted
mapping names the reference; with no matching record it reports revoked.
The existence check is inverted: presence of a record means not revoked. -/
theorem status_oracle_inverted_existence (op : String) (ps : PersistedStore)
    (hne : op ≠ dummyOutpoint) :
    checkRevocationStatus op ps = false ↔
      ∃ kv ∈ loadSecrets ps, kv.2.outpoint = op := by
  unfold checkRevocationStatus
  rw [if_neg hne]
  simp [List.any_eq_true]

/-- Witness for C2: a store holding a record for the queried reference. -/
theorem status_oracle_inverted_existence_witness :
    checkRevocationStatus "a.0"
      (PersistedStore.good [("s1",
        { secret := "01", outpoint := "a.0", beef := [] })]) = false :=
  (status_oracle_inverted_existence "a.0"
    (PersistedStore.good [("s1",
      { secret := "01", outpoint := "a.0", beef := [] })])
    (by decide)).mpr
    ⟨("s1", { secret := "01", outpoint := "a.0", beef := [] }),
      by simp [loadSecrets], rfl⟩

/-- C6: the reserved all-zero legacy sentinel (64 zero hexadecimal
characters, a dot, and output index 0) is never reported revoked,
whatever the store holds. -/
theorem sentinel_never_revoked :
    dummyOutpoint =
      "0000000000000000000000000000000000000000000000000000000000000000.0" ∧
    ∀ ps : PersistedStore, checkRevocationStatus dummyOutpoint ps = false := by
  constructor
  · rfl
  · intro ps
    unfold checkRevocationStatus
    rw [if_pos rfl]

/-- C9: the status oracle never fails.  It is a total boolean function,
and both a missing secrets file and an unparseable one are loaded as the
empty mapping, so status queries on them behave exactly as on a persisted
empty mapping instead of propagating an error. -/
theorem unreadable_store_as_empty_mapping :
    (loadSecrets PersistedStore.missing = [] ∧
      loadSecrets PersistedStore.corrupt = []) ∧
    ∀ op : String,
      checkRevocationStatus op PersistedStore.missing =
        checkRevocationStatus op (PersistedStore.good []) ∧
      checkRevocationStatus op PersistedStore.corrupt =
        checkRevocationStatus op (PersistedStore.good []) :=
  ⟨⟨rfl, rfl⟩, fun _ => ⟨rfl, rfl⟩⟩

/-- C10: a non-sentinel reference that no stored record names is reported
revoked — including references never issued by the engine and every
reference when the store is empty.  Only exact equality with the sentinel
bypasses the scan, so the all-zero transaction id with a different output
index also goes through the existence check. -/
theorem unknown_reference_reported_revoked (op : String) (ps : PersistedStore)
    (hne : op ≠ dummyOutpoint)
    (habs : ∀ kv ∈ loadSecrets ps, kv.2.outpoint ≠ op) :
    checkRevocationStatus op ps = true := by
  unfold checkRevocationStatus
  rw [if_neg hne]
  simp only [Bool.not_eq_true']
  rw [List.any_eq_false]
  intro kv hkv
  simp [habs kv hkv]

/-- Witness for C10: the all-zero transaction id with output index 1,
queried against an empty store, is reported revoked. -/
theorem unknown_reference_reported_revoked_witness :
    checkRevocationStatus
      (String.join (List.replicate 32 "00") ++ ".1")
      (PersistedStore.good []) = true :=
  unknown_reference_reported_revoked
    (String.join (List.replicate 32 "00") ++ ".1")
    (PersistedStore.good []) (by decide)
    (by intro kv hkv; cases hkv)

/-- C3: when the spend submission returns no transaction id the operation
fails with the hard-failure message and the record stays intact in an
unchanged store, so the call is retryable; and any run that does succeed
obtained a confirmed transaction id from the capability, with the record
deleted from the store only then. -/
theorem revoke_deletes_only_after_confirmed_txid
    (s : String) (ps : PersistedStore) (r : RevocationRecord)
    (ledger ledger2 : SpendActionArgs → LedgerReply)
    (tx : Option (List Nat)) (out : SpendResult) (ps2 : PersistedStore)
    (hrec : storeGet s (loadSecrets ps) = some r)
    (hrep : ledger (revokeArgs r) = LedgerReply.ok none tx)
    (hrun2 : revokeCertificate s ledger2 ps = (Except.ok out, ps2)) :
    revokeCertificate s ledger ps =
      (Except.error "Revocation transaction failed — no txid returned", ps) ∧
    storeGet s (loadSecrets (revokeCertificate s ledger ps).2) = some r ∧
    replyTxid (ledger2 (revokeArgs r)) = some out.txid ∧
    ps2 = PersistedStore.good (storeDel s (loadSecrets ps)) := by
  have h1 : revokeCertificate s ledger ps =
      (Except.error "Revocation transaction failed — no txid returned", ps) := by
    simp [revokeCertificate, hrec, hrep]
  have h2 : replyTxid (ledger2 (revokeArgs r)) = some out.txid ∧
      ps2 = PersistedStore.good (storeDel s (loadSecrets ps)) := by
    cases hrep2 : ledger2 (revokeArgs r) with
    | err m =>
        simp [revokeCertificate, hrec, hrep2] at hrun2
    | ok t txo =>
        cases t with
        | none =>
            simp [revokeCertificate, hrec, hrep2] at hrun2
        | some v =>
            simp only [revokeCertificate, hrec, hrep2, withSecretsLock,
              saveSecrets, Prod.mk.injEq, Except.ok.injEq] at hrun2
            obtain ⟨ho, hp⟩ := hrun2
            refine ⟨?_, hp.symm⟩
            rw [← ho]
            rfl
  refine ⟨h1, ?_, h2.1, h2.2⟩
  rw [h1]
  exact hrec

/-- Record, store and spend capabilities used by the C3 witness. -/
def rec1 : RevocationRecord := { secret := "01", outpoint := "b.0", beef := [1] }

/-- Persisted store holding rec1 under serial sr. -/
def psR : PersistedStore := PersistedStore.good [("sr", rec1)]

/-- Spend capability whose reply carries no transaction id. -/
def ledgNone : SpendActionArgs → LedgerReply := fun _ => LedgerReply.ok none none

/-- Spend capability whose reply confirms transaction id tx9. -/
def ledgSome : SpendActionArgs → LedgerReply :=
  fun _ => LedgerReply.ok (some "tx9") none

/-- Witness for C3 on a concrete record and capabilities. -/
theorem revoke_deletes_only_after_confirmed_txid_witness :
    revokeCertificate "sr" ledgNone psR =
      (Except.error "Revocation transaction failed — no txid returned", psR) ∧
    storeGet "sr" (loadSecrets (revokeCertificate "sr" ledgNone psR).2) =
      some rec1 ∧
    replyTxid (ledgSome (revokeArgs rec1)) =
      some (SpendResult.mk "tx9").txid ∧
    PersistedStore.good [] =
      PersistedStore.good (storeDel "sr" (loadSecrets psR)) :=
  revoke_deletes_only_after_confirmed_txid "sr" psR rec1 ledgNone ledgSome
    none (SpendResult.mk "tx9") (PersistedStore.good [])
    (by rfl) (by rfl) (by rfl)

/-- C4: on every successful issuance, a record holding the generated
secret, the commitment outpoint and the transaction bytes is persisted
under the signed serial number, and immediately afterwards the status
oracle reports the commitment reference of the result as not revoked.
The hypothesis hsig is the signer contract: the signed certificate embeds
the outpoint supplied through the resolution callback. -/
theorem issue_persists_record_and_not_revoked
    (sha256 : List Nat → List Nat) (secretBytes : List Nat)
    (ledger : CreateActionArgs → LedgerReply)
    (signer : String → List (String × String) → String → String → SignerReply)
    (identityKey : String) (fields : List (String × String)) (certType : String)
    (ps ps' : PersistedStore) (res : IssueResult) (u : UtxoResult)
    (hrun : issueCertificate sha256 secretBytes ledger signer identityKey
      fields certType ps = (Except.ok res, ps'))
    (hu : createRevocationUtxo sha256 secretBytes ledger = Except.ok u)
    (hsig : ∀ op c, signer identityKey fields certType op = SignerReply.ok c →
      c.revocationOutpoint = op) :
    storeGet res.serialNumber (loadSecrets ps') =
      some { secret := u.secret, outpoint := u.outpoint, beef := u.beef } ∧
    u.secret = toHex secretBytes ∧
    res.revocationOutpoint = u.outpoint ∧
    checkRevocationStatus res.revocationOutpoint ps' = false := by
  have husec : u.secret = toHex secretBytes := by
    unfold createRevocationUtxo at hu
    cases hrep : ledger (revocationArgs sha256 secretBytes) with
    | err m => rw [hrep] at hu; cases hu
    | ok t txo =>
        cases t with
        | none => rw [hrep] at hu; cases hu
        | some v =>
            rw [hrep] at hu
            cases hu
            rfl
  cases hs : signer identityKey fields certType u.outpoint with
  | err m =>
      simp only [issueCertificate, hu, hs] at hrun
      simp at hrun
  | ok c =>
      simp only [issueCertificate, hu, hs, withSecretsLock, saveSecrets,
        Prod.mk.injEq, Except.ok.injEq] at hrun
      obtain ⟨hres, hps⟩ := hrun
      have hro : res.revocationOutpoint = u.outpoint := by
        rw [← hres]
        exact hsig u.outpoint c hs
      have hser : res.serialNumber = c.serialNumber := by rw [← hres]
      refine ⟨?_, husec, hro, ?_⟩
      · rw [hser, ← hps]
        simp only [loadSecrets]
        exact storeGet_set_self _ _ _
      · rw [hro]
        unfold checkRevocationStatus
        by_cases hd : u.outpoint = dummyOutpoint
        · rw [if_pos hd]
        · rw [if_neg hd]
          simp only [Bool.not_eq_false']
          rw [List.any_eq_true]
          refine ⟨(c.serialNumber,
            { secret := u.secret, outpoint := u.outpoint, beef := u.beef }), ?_, ?_⟩
          · rw [← hps]
            simp only [loadSecrets]
            exact mem_storeSet_self _ _ _
          · simp

/-- Signer capability that echoes the resolved outpoint back into the
certificate, as the real signer does. -/
def sign2 : String → List (String × String) → String → String → SignerReply :=
  fun _ _ _ op => SignerReply.ok
    { type := "age", serialNumber := "serial2", subject := "subj"
      certifier := "certf", revocationOutpoint := op, fields := []
      signature := "sig", masterKeyring := [] }

/-- The UTXO created in the C4 witness run. -/
def utxo1 : UtxoResult :=
  { outpoint := "t1" ++ ".0", secret := toHex [1, 2, 3], beef := [9] }

/-- The issuance result of the C4 witness run. -/
def issueRes2 : IssueResult :=
  { type := "age", serialNumber := "serial2", subject := "subj"
    certifier := "certf", revocationOutpoint := "t1" ++ ".0"
    revocationTxid := "t1", fields := [], signature := "sig"
    keyringForSubject := [] }

/-- The persisted store of the C4 witness run. -/
def issuePs2 : PersistedStore :=
  PersistedStore.good [("serial2",
    { secret := toHex [1, 2, 3], outpoint := "t1" ++ ".0", beef := [9] })]

/-- Witness for C4 on a concrete successful issuance. -/
theorem issue_persists_record_and_not_revoked_witness :
    storeGet issueRes2.serialNumber (loadSecrets issuePs2) =
      some { secret := utxo1.secret, outpoint := utxo1.outpoint,
             beef := utxo1.beef } ∧
    utxo1.secret = toHex [1, 2, 3] ∧
    issueRes2.revocationOutpoint = utxo1.outpoint ∧
    checkRevocationStatus issueRes2.revocationOutpoint issuePs2 = false :=
  issue_persists_record_and_not_revoked sha0 [1, 2, 3] ledg1 sign2 "ik" []
    "ct" PersistedStore.missing issuePs2 issueRes2 utxo1
    (by rfl) (by rfl)
    (by
      intro op c h
      injection h with h3
      subst h3
      rfl)

/-- C5: revoking a serial number with no record fails with the not-found
error, leaves the store unchanged, and never consults the ledger
capability: the whole run is independent of it. -/
theorem revoke_unknown_serial_not_found
    (s : String) (ps : PersistedStore)
    (ledger ledger2 : SpendActionArgs → LedgerReply)
    (habs : storeGet s (loadSecrets ps) = none) :
    revokeCertificate s ledger ps =
      (Except.error "Certificate already revoked or not found", ps) ∧
    revokeCertificate s ledger2 ps = revokeCertificate s ledger ps := by
  have h1 : ∀ lg : SpendActionArgs → LedgerReply,
      revokeCertificate s lg ps =
        (Except.error "Certificate already revoked or not found", ps) := by
    intro lg
    simp [revokeCertificate, habs]
  exact ⟨h1 ledger, (h1 ledger2).trans (h1 ledger).symm⟩

/-- Witness for C5 on an empty store. -/
theorem revoke_unknown_serial_not_found_witness :
    revokeCertificate "zz" ledgSome (PersistedStore.good []) =
      (Except.error "Certificate already revoked or not found",
        PersistedStore.good []) ∧
    revokeCertificate "zz" ledgNone (PersistedStore.good []) =
      revokeCertificate "zz" ledgSome (PersistedStore.good []) :=
  revoke_unknown_serial_not_found "zz" (PersistedStore.good [])
    ledgSome ledgNone (by rfl)

/-- C7: a successful commitment creation submits exactly one 1-satoshi
output whose locking script is the hash lock over the SHA-256 digest of
the freshly drawn 32-byte secret, with output randomization disabled, and
returns the transaction id joined with output index 0 as the reference,
together with the hex secret and the raw transaction bytes. -/
theorem commitment_creation_shape
    (sha256 : List Nat → List Nat) (secretBytes : List Nat)
    (ledger : CreateActionArgs → LedgerReply)
    (txid : String) (tx : Option (List Nat))
    (hrep : ledger (revocationArgs sha256 secretBytes) =
      LedgerReply.ok (some txid) tx) :
    createRevocationUtxo sha256 secretBytes ledger =
      Except.ok { outpoint := txid ++ ".0", secret := toHex secretBytes,
                  beef := tx.getD [] } ∧
    (revocationArgs sha256 secretBytes).outputs =
      [{ lockingScript := [ScriptElem.opcode opSHA256,
           ScriptElem.push (sha256 secretBytes), ScriptElem.opcode opEQUAL]
         satoshis := 1
         outputDescription := "Revocation hash-lock"
         basket := "revocation-utxos"
         tags := ["revocation"] }] ∧
    (revocationArgs sha256 secretBytes).randomizeOutputs = false := by
  refine ⟨?_, rfl, rfl⟩
  unfold createRevocationUtxo
  rw [hrep]

/-- Ledger capability used by the C7 witness. -/
def ledg7 : CreateActionArgs → LedgerReply :=
  fun _ => LedgerReply.ok (some "tx7") (some [3, 4])

/-- Witness for C7 on a concrete accepted creation. -/
theorem commitment_creation_shape_witness :
    createRevocationUtxo sha0 [1] ledg7 =
      Except.ok { outpoint := "tx7" ++ ".0", secret := toHex [1],
                  beef := (some [3, 4]).getD [] } ∧
    (revocationArgs sha0 [1]).outputs =
      [{ lockingScript := [ScriptElem.opcode opSHA256,
           ScriptElem.push (sha0 [1]), ScriptElem.opcode opEQUAL]
         satoshis := 1
         outputDescription := "Revocation hash-lock"
         basket := "revocation-utxos"
         tags := ["revocation"] }] ∧
    (revocationArgs sha0 [1]).randomizeOutputs = false :=
  commitment_creation_shape sha0 [1] ledg7 "tx7" (some [3, 4]) (by rfl)

/-- C8: when commitment creation fails, issuance aborts with the error
(mapped to the distinct not-funded message exactly when the failure text
indicates missing funds) and an unchanged store, and the run does not
depend on the signer at all, so no signing is attempted. -/
theorem issue_clean_abort_on_commitment_failure
    (sha256 : List Nat → List Nat) (secretBytes : List Nat)
    (ledger : CreateActionArgs → LedgerReply)
    (signer signer2 : String → List (String × String) → String → String → SignerReply)
    (identityKey : String) (fields : List (String × String)) (certType : String)
    (ps : PersistedStore) (msg : String)
    (herr : createRevocationUtxo sha256 secretBytes ledger = Except.error msg) :
    issueCertificate sha256 secretBytes ledger signer identityKey fields
      certType ps =
      (Except.error (if fundsRelated msg then notFundedMsg else msg), ps) ∧
    issueCertificate sha256 secretBytes ledger signer2 identityKey fields
      certType ps =
      issueCertificate sha256 secretBytes ledger signer identityKey fields
        certType ps := by
  have h1 : ∀ sg : String → List (String × String) → String → String → SignerReply,
      issueCertificate sha256 secretBytes ledger sg identityKey fields
        certType ps =
        (Except.error (if fundsRelated msg then notFundedMsg else msg), ps) := by
    intro sg
    unfold issueCertificate
    rw [herr]
  exact ⟨h1 signer, (h1 signer2).trans (h1 signer).symm⟩

/-- Ledger capability whose creation call throws a funds error. -/
def ledgErr : CreateActionArgs → LedgerReply :=
  fun _ => LedgerReply.err "ERR_NOT_SUFFICIENT_FUNDS: need 1 more satoshi"

/-- Witness for C8: the funds failure surfaces the distinct not-funded
message, the store is untouched, and the signer is never consulted. -/
theorem issue_clean_abort_on_commitment_failure_witness :
    issueCertificate sha0 [1] ledgErr sign2 "ik" [] "ct"
      PersistedStore.missing =
      (Except.error notFundedMsg, PersistedStore.missing) ∧
    issueCertificate sha0 [1] ledgErr sign1 "ik" [] "ct"
      PersistedStore.missing =
      issueCertificate sha0 [1] ledgErr sign2 "ik" [] "ct"
        PersistedStore.missing :=
  issue_clean_abort_on_commitment_failure sha0 [1] ledgErr sign2 sign1
    "ik" [] "ct" PersistedStore.missing
    "ERR_NOT_SUFFICIENT_FUNDS: need 1 more satoshi" (by rfl)

end Over18
